import Mathlib

/-!
Verification of the Stack Overflow bounty-timeline scraper (`src/scraper.py`).

The Python source is shallowly embedded in Lean:

* The pure event-extraction core of `_scrape_timeline_events`
  (scraper.py lines 171-206) is embedded over an abstract document model:
  a selected timeline row exposes the optional text of its event-label
  cell (`td.wmn1`) and, when the timestamp cell (`span.relativetime`)
  is present, that cell's optional `title` attribute.
* The reconciler `_get_unprocessed_question_ids` (lines 105-134) is
  embedded over explicit models of the two on-disk files: the target-ID
  source (may be missing, unreadable, or readable) and the result store
  (an optional list of rows plus a flag saying whether reading it
  succeeded).
* The store writer `_save_results` (lines 212-248) becomes a pure
  create-or-append function on the optional store contents.
* The driver `run` (lines 250-294) becomes a total function over a
  per-ID fetch-outcome oracle and a per-write success oracle; control
  flow that Python realises with exceptions is realised with `Except`
  (an aborted loop carries the state at the abort point), and the
  `try`/`except`/`finally` structure of `run` is reproduced faithfully:
  the broad `except` clause swallows the error (the run still returns),
  and the `finally` clause releases the web driver on every path on
  which it was acquired.
-/

namespace BountyScraper

/-- A single row selected by the `soup.find_all` call at scraper.py
lines 173-179.  `event_cell` holds the stripped text of the `td.wmn1`
cell when that cell is present and truthy, `none` otherwise;
`date_cell` is `some t` when the `span.relativetime` cell is present
and truthy, where `t` is its optional `title` attribute. -/
structure TimelineRow where
  event_cell : Option String
  date_cell : Option (Option String)
deriving DecidableEq

/-- The character set of the Python call `date.strip('"[]\x27')` at
scraper.py line 193: double quote, square brackets, single quote. -/
def stripChars : List Char := [Char.ofNat 34, '[', ']', Char.ofNat 39]

/-- Python `s.strip(chars)`: remove all leading and all trailing
characters drawn from `stripChars` (scraper.py line 193). -/
def pyStrip (s : String) : String :=
  String.mk (((s.toList.dropWhile fun c => decide (c ∈ stripChars)).reverse.dropWhile
      fun c => decide (c ∈ stripChars)).reverse)

/-- Lines 187-193: read the `title` attribute and, when it is truthy
(present and non-empty), strip surrounding quote/bracket characters.
An absent (`none`) or empty title is kept as is. -/
def cleanDate : Option String → Option String
  | none => none
  | some d => if d = "" then some d else some (pyStrip d)

/-- `startsWithChars p t` holds when the character list `p` is an initial
segment of `t`. -/
def startsWithChars : List Char → List Char → Bool
  | [], _ => true
  | _ :: _, [] => false
  | a :: p, b :: t => a == b && startsWithChars p t

/-- `hasSubChars p t` holds when the character list `p` occurs contiguously
somewhere inside `t`: the embedding of Python's `p in t` substring test. -/
def hasSubChars (p : List Char) : List Char → Bool
  | [] => startsWithChars p []
  | b :: rest => startsWithChars p (b :: rest) || hasSubChars p rest

/-- Python's `needle in hay` substring test on strings
(scraper.py lines 197 and 199). -/
def containsSub (needle hay : String) : Bool :=
  hasSubChars needle.toList hay.toList

/-- One iteration of the row loop at scraper.py lines 181-200.  The
accumulator is the pair `(bounty_start, bounty_end)`.  The row is used
only when both cells are truthy; the two substring checks on the raw
event text are independent `if` statements, appending the same cleaned
date to each matching bucket. -/
def scrapeRowStep (acc : List (Option String) × List (Option String))
    (row : TimelineRow) : List (Option String) × List (Option String) :=
  match row.event_cell, row.date_cell with
  | some event_text, some title =>
      let date := cleanDate title
      let acc₁ := if containsSub "bounty started" event_text
        then (acc.1 ++ [date], acc.2) else acc
      if containsSub "bounty ended" event_text
        then (acc₁.1, acc₁.2 ++ [date]) else acc₁
  | _, _ => acc

/-- The pure extraction core of `_scrape_timeline_events`
(scraper.py lines 171-206): fold the row loop over the selected rows,
starting from two empty buckets, returning `(bounty_start, bounty_end)`. -/
def extractBountyEvents (rows : List TimelineRow) :
    List (Option String) × List (Option String) :=
  rows.foldl scrapeRowStep ([], [])

example :
    extractBountyEvents
      [⟨some "bounty started", some (some "2023-12-05 18:56:51Z")⟩]
      = ([some "2023-12-05 18:56:51Z"], []) := rfl

example :
    extractBountyEvents
      [⟨some "bounty ended", some (some "\"2023-12-06 10:00:00Z\"")⟩]
      = ([], [some "2023-12-06 10:00:00Z"]) := rfl

example :
    extractBountyEvents [⟨some "Bounty started", some (some "x")⟩]
      = ([], []) := rfl

example :
    extractBountyEvents [⟨some "bounty started and bounty ended", some none⟩]
      = ([none], [none]) := rfl

/-- One persisted row: `{'question_id': ..., 'bounty_start': ...,
'bounty_end': ...}` as built at scraper.py lines 202-206. -/
structure ScrapeResult where
  question_id : Int
  bounty_start : List (Option String)
  bounty_end : List (Option String)
deriving DecidableEq

/-- The result-store file: `none` when `results_path` does not exist,
`some rows` when it holds the given rows. -/
def Store := Option (List ScrapeResult)

/-- Lines 122-129: the set of already-processed IDs.  When the store file
exists and reading it succeeds, it is the `question_id` column; when the
file is absent, or exists but reading raises (the `except` clause at
line 128 logs and keeps the empty set), it is empty. -/
def processedIdsOf : Option (List ScrapeResult) → Bool → List Int
  | some rows, true => rows.map ScrapeResult.question_id
  | some _, false => []
  | none, _ => []

/-- Line 132, `list(all_bounty_ids - processed_ids)`: the target list is
deduplicated (Python `set`) and the already-processed IDs are removed.
The concrete order of the returned list is unspecified in Python (set
iteration order); this is one representative order. -/
def pendingIds (allBountyIds : List Int) (store0 : Option (List ScrapeResult))
    (storeReadOk : Bool) : List Int :=
  allBountyIds.dedup.filter fun x => decide (x ∉ processedIdsOf store0 storeReadOk)

/-- The state of the target-ID source file `ids_path`: missing (the
`os.path.exists` check at line 113 fails), present but unreadable
(`pd.read_parquet` at line 117 raises), or readable with the given
`question_id` column. -/
inductive IdsSource
  | missing
  | unreadable
  | readable (ids : List Int)

/-- `_get_unprocessed_question_ids` (scraper.py lines 105-134).  A missing
source file is logged and yields the empty work list (line 115); an
unreadable source lets the `pd.read_parquet` exception propagate
(`Except.error`); otherwise the pending IDs are computed. -/
def _get_unprocessed_question_ids (src : IdsSource)
    (store0 : Option (List ScrapeResult)) (storeReadOk : Bool) :
    Except Unit (List Int) :=
  match src with
  | .missing => .ok []
  | .unreadable => .error ()
  | .readable allIds => .ok (pendingIds allIds store0 storeReadOk)

/-- `_save_results` (scraper.py lines 212-248), success path: an empty
result list returns immediately (line 219) touching nothing; otherwise
the rows are appended to the existing file (line 240) or become the
initial contents of a new file (line 242). -/
def _save_results (results : List ScrapeResult) :
    Option (List ScrapeResult) → Option (List ScrapeResult)
  | none => if results.isEmpty then none else some results
  | some rows => if results.isEmpty then some rows else some (rows ++ results)

/-- The outcome of rendering one question's timeline page:
`ok rows` — the page rendered and the selector produced `rows`;
`transient` — an exception was raised and caught by the per-item
`except` clause at line 208 (`_scrape_timeline_events` returns `None`);
`unexpected` — an error escaped the per-item handler during this
iteration of the fetch loop (it propagates to `run`'s own handler). -/
inductive FetchOutcome
  | ok (rows : List TimelineRow)
  | transient
  | unexpected
deriving DecidableEq

/-- `_scrape_timeline_events` (scraper.py lines 153-210) as seen by the
driver: given the rendered rows it returns the `ScrapeResult` dict
(lines 202-206); on a caught per-item failure it returns `none`
(line 210). -/
def _scrape_timeline_events (question_id : Int) :
    Option (List TimelineRow) → Option ScrapeResult
  | some rows =>
      some ⟨question_id, (extractBountyEvents rows).1, (extractBountyEvents rows).2⟩
  | none => none

/-- The mutable state of `run`'s fetch loop: the in-memory `results`
accumulator, the store file, the number of write attempts made so far
(used to index the per-write success oracle), and the list of IDs for
which an iteration of the loop was entered. -/
structure RunState where
  results : List ScrapeResult
  store : Option (List ScrapeResult)
  writes : Nat
  fetched : List Int
deriving DecidableEq

/-- A call `self._save_results(results)` followed by `results = []`
(scraper.py lines 275-276 and 281-282), with possible write failure:
an empty accumulator returns before any write (line 219) and cannot
fail; otherwise the oracle `saveOk` decides whether the `write` call
succeeds.  On success the accumulator is cleared; on failure the
exception propagates (`Except.error`) before `results = []` runs, so
the accumulator is kept and the store is unchanged. -/
def trySave (saveOk : Nat → Bool) (s : RunState) : Except RunState RunState :=
  if s.results.isEmpty then .ok s
  else if saveOk s.writes then
    .ok ⟨[], _save_results s.results s.store, s.writes + 1, s.fetched⟩
  else .error ⟨s.results, s.store, s.writes + 1, s.fetched⟩

/-- One iteration of the fetch loop (scraper.py lines 268-278): on an
`unexpected` outcome the iteration aborts, the exception propagating out
of the loop; otherwise `_scrape_timeline_events` yields an optional
result which is appended when present (lines 270-271), and the batch
is saved once `len(results) >= batch_size` (lines 274-276). -/
def runIter (batch_size : Nat) (saveOk : Nat → Bool) (s : RunState)
    (item : Int × FetchOutcome) : Except RunState RunState :=
  match item.2 with
  | .unexpected => .error ⟨s.results, s.store, s.writes, s.fetched ++ [item.1]⟩
  | .transient =>
      let s₁ : RunState := ⟨s.results, s.store, s.writes, s.fetched ++ [item.1]⟩
      if batch_size ≤ s₁.results.length then trySave saveOk s₁ else .ok s₁
  | .ok rows =>
      let results := match _scrape_timeline_events item.1 (some rows) with
        | some r => s.results ++ [r]
        | none => s.results
      let s₁ : RunState := ⟨results, s.store, s.writes, s.fetched ++ [item.1]⟩
      if batch_size ≤ s₁.results.length then trySave saveOk s₁ else .ok s₁

/-- The fetch loop (scraper.py lines 267-278): iterate `runIter`; an
`Except.error` aborts the remaining iterations, carrying the state at
the abort point. -/
def runLoop (batch_size : Nat) (saveOk : Nat → Bool) :
    List (Int × FetchOutcome) → RunState → Except RunState RunState
  | [], s => .ok s
  | item :: rest, s =>
      match runIter batch_size saveOk s item with
      | .ok s₁ => runLoop batch_size saveOk rest s₁
      | .error s₁ => .error s₁

/-- The observable outcome of one `run` call: the final store file, the
in-memory results never flushed (`leftover`), whether the broad
`except` clause at line 289 caught an error (`aborted`), the IDs whose
loop iteration was entered, and whether the web driver was acquired
(line 262) and released (the `finally` clause at lines 291-294). -/
structure RunOutcome where
  store : Option (List ScrapeResult)
  leftover : List ScrapeResult
  aborted : Bool
  fetched : List Int
  driverAcquired : Bool
  driverReleased : Bool
deriving DecidableEq

/-- The loop state at entry of the `try` block: empty accumulator, the
pre-existing store file, no writes, no fetches. -/
def initRunState (store0 : Option (List ScrapeResult)) : RunState :=
  ⟨[], store0, 0, []⟩

/-- Lines 257-294 of `run`: everything after the reconciler returned the
work list `ids`.  An empty work list exits cleanly before the driver is
configured (lines 257-259); otherwise the driver is acquired, the fetch
loop runs, and on normal loop completion the remainder is saved
(lines 281-282).  Any exception escaping the loop or the remainder save
is caught and logged by the `except` clause (line 289) — the in-memory
accumulator at that point is never flushed — and the `finally` clause
(lines 291-294) releases the driver on every one of these paths. -/
def runBody (batch_size : Nat) (saveOk : Nat → Bool) (ids : List Int)
    (store0 : Option (List ScrapeResult)) (fetch : Int → FetchOutcome) :
    RunOutcome :=
  if ids.isEmpty then ⟨store0, [], false, [], false, false⟩
  else
    match runLoop batch_size saveOk (ids.map fun i => (i, fetch i))
        (initRunState store0) with
    | .ok s =>
        match trySave saveOk s with
        | .ok s₁ => ⟨s₁.store, s₁.results, false, s₁.fetched, true, true⟩
        | .error s₁ => ⟨s₁.store, s₁.results, true, s₁.fetched, true, true⟩
    | .error s => ⟨s.store, s.results, true, s.fetched, true, true⟩

def run (batch_size : Nat) (saveOk : Nat → Bool) (src : IdsSource)
    (store0 : Option (List ScrapeResult)) (storeReadOk : Bool)
    (fetch : Int → FetchOutcome) : Except Unit RunOutcome :=
  match _get_unprocessed_question_ids src store0 storeReadOk with
  | .error e => .error e
  | .ok ids => .ok (runBody batch_size saveOk ids store0 fetch)

/-! ### Helper lemmas about the extractor -/

theorem startsWithChars_iff (p t : List Char) :
    startsWithChars p t = true ↔ ∃ r, t = p ++ r := by
  induction p generalizing t with
  | nil => simp [startsWithChars]
  | cons a p ih =>
    cases t with
    | nil =>
      simp [startsWithChars]
    | cons b t =>
      simp only [startsWithChars, Bool.and_eq_true, beq_iff_eq, ih, List.cons_append]
      constructor
      · rintro ⟨rfl, r, rfl⟩
        exact ⟨r, rfl⟩
      · rintro ⟨r, heq⟩
        rw [List.cons_eq_cons] at heq
        exact ⟨heq.1.symm, r, heq.2⟩

theorem hasSubChars_iff (p t : List Char) :
    hasSubChars p t = true ↔ ∃ l r, t = l ++ p ++ r := by
  induction t with
  | nil =>
    simp only [hasSubChars, startsWithChars_iff]
    constructor
    · rintro ⟨r, h⟩
      exact ⟨[], r, by simpa using h⟩
    · rintro ⟨l, r, h⟩
      rw [eq_comm, List.append_eq_nil, List.append_eq_nil] at h
      exact ⟨[], by simp [h.1.2]⟩
  | cons b t ih =>
    simp only [hasSubChars, Bool.or_eq_true, startsWithChars_iff, ih]
    constructor
    · rintro (⟨r, h⟩ | ⟨l, r, h⟩)
      · exact ⟨[], r, by simpa using h⟩
      · exact ⟨b :: l, r, by simp [h]⟩
    · rintro ⟨l, r, h⟩
      cases l with
      | nil => exact Or.inl ⟨r, by simpa using h⟩
      | cons x l =>
        rw [List.cons_append, List.cons_append, List.cons_eq_cons] at h
        exact Or.inr ⟨l, r, by simp [h.2]⟩

theorem containsSub_iff (needle hay : String) :
    containsSub needle hay = true ↔
      ∃ l r, hay.toList = l ++ needle.toList ++ r :=
  hasSubChars_iff needle.toList hay.toList

/-- Processing one further well-formed row appends the cleaned date to
exactly the buckets whose substring check fires on the raw event text. -/
theorem extract_snoc (rows : List TimelineRow) (e : String) (t : Option String) :
    extractBountyEvents (rows ++ [⟨some e, some t⟩]) =
      ((if containsSub "bounty started" e
          then (extractBountyEvents rows).1 ++ [cleanDate t]
          else (extractBountyEvents rows).1),
       (if containsSub "bounty ended" e
          then (extractBountyEvents rows).2 ++ [cleanDate t]
          else (extractBountyEvents rows).2)) := by
  unfold extractBountyEvents
  rw [List.foldl_append]
  show scrapeRowStep (rows.foldl scrapeRowStep ([], [])) ⟨some e, some t⟩ = _
  set acc := rows.foldl scrapeRowStep ([], []) with hacc
  show (let date := cleanDate t;
        let acc₁ := if containsSub "bounty started" e
          then (acc.1 ++ [date], acc.2) else acc
        if containsSub "bounty ended" e
          then (acc₁.1, acc₁.2 ++ [date]) else acc₁) = _
  by_cases h1 : containsSub "bounty started" e <;>
    by_cases h2 : containsSub "bounty ended" e <;>
      simp [h1, h2]

/-- A character at the head of `dropWhile p` does not satisfy `p`. -/
theorem head?_dropWhile_false (p : Char → Bool) (l : List Char) :
    ∀ c, (l.dropWhile p).head? = some c → p c = false := by
  induction l with
  | nil => intro c h; simp at h
  | cons a l ih =>
    intro c h
    rw [List.dropWhile_cons] at h
    by_cases ha : p a
    · rw [if_pos ha] at h
      exact ih c h
    · rw [if_neg ha] at h
      simp only [List.head?_cons, Option.some.injEq] at h
      subst h
      exact Bool.eq_false_iff.mpr ha

/-- `pyStrip` removes exactly a maximal run of leading and of trailing
characters from `stripChars`: the input splits as `pre ++ out ++ suf`
with `pre`, `suf` made of strip characters and `out` not starting or
ending with one. -/
theorem pyStrip_spec (s : String) :
    ∃ pre suf, (∀ c ∈ pre, c ∈ stripChars) ∧ (∀ c ∈ suf, c ∈ stripChars) ∧
      s.toList = pre ++ (pyStrip s).toList ++ suf ∧
      (∀ c, (pyStrip s).toList.head? = some c → c ∉ stripChars) ∧
      (∀ c, (pyStrip s).toList.getLast? = some c → c ∉ stripChars) := by
  set p : Char → Bool := fun c => decide (c ∈ stripChars) with hp
  set l : List Char := s.toList with hl
  set l₁ : List Char := l.dropWhile p with hl₁
  have hres : (pyStrip s).toList = (l₁.reverse.dropWhile p).reverse := rfl
  have h2 : l₁.reverse.takeWhile p ++ l₁.reverse.dropWhile p = l₁.reverse :=
    List.takeWhile_append_dropWhile p l₁.reverse
  have h3 : l₁ = (l₁.reverse.dropWhile p).reverse ++ (l₁.reverse.takeWhile p).reverse := by
    conv_lhs => rw [← List.reverse_reverse l₁, ← h2]
    rw [List.reverse_append]
  refine ⟨l.takeWhile p, (l₁.reverse.takeWhile p).reverse, ?_, ?_, ?_, ?_, ?_⟩
  · intro c hc
    simpa [hp] using List.mem_takeWhile_imp hc
  · intro c hc
    rw [List.mem_reverse] at hc
    simpa [hp] using List.mem_takeWhile_imp hc
  · rw [hres]
    calc l = l.takeWhile p ++ l₁ := (List.takeWhile_append_dropWhile p l).symm
    _ = l.takeWhile p ++ ((l₁.reverse.dropWhile p).reverse
          ++ (l₁.reverse.takeWhile p).reverse) := by rw [← h3]
    _ = l.takeWhile p ++ (l₁.reverse.dropWhile p).reverse
          ++ (l₁.reverse.takeWhile p).reverse := by rw [List.append_assoc]
  · intro c hc
    rw [hres] at hc
    by_cases h0 : (l₁.reverse.dropWhile p).reverse = []
    · rw [h0] at hc
      simp at hc
    · have hh : l₁.head? = some c := by
        rw [h3, List.head?_append_of_ne_nil _ h0, hc]
      have : p c = false := head?_dropWhile_false p l c (hl₁ ▸ hh)
      simpa [hp] using this
  · intro c hc
    rw [hres, List.getLast?_reverse] at hc
    have : p c = false := head?_dropWhile_false p l₁.reverse c hc
    simpa [hp] using this

/-- Claim C10: saving an empty result list is a no-op — no file is
created when none exists, and an existing store is left unchanged
(the early return at scraper.py line 219). -/
theorem C10_save_empty_results_noop (store : Option (List ScrapeResult)) :
    _save_results [] store = store := by
  cases store <;> rfl

/-- Claim C7: a selected row missing the event-label cell or the
timestamp cell contributes no event to either output bucket and raises
no error — the pipeline of the remaining rows is unchanged (the guard
`if event_cell and date_cell` at scraper.py line 185). -/
theorem C7_malformed_row_skipped (rows₁ rows₂ : List TimelineRow)
    (row : TimelineRow) (h : row.event_cell = none ∨ row.date_cell = none) :
    extractBountyEvents (rows₁ ++ row :: rows₂)
      = extractBountyEvents (rows₁ ++ rows₂) := by
  unfold extractBountyEvents
  rw [List.foldl_append, List.foldl_append, List.foldl_cons]
  obtain ⟨ec, dc⟩ := row
  congr 1
  rcases h with h | h
  · simp only at h
    subst h
    rfl
  · simp only at h
    subst h
    cases ec <;> rfl

theorem C7_witness :
    extractBountyEvents [⟨none, some (some "2023-12-05 18:56:51Z")⟩]
      = extractBountyEvents [] := by
  simpa using
    C7_malformed_row_skipped [] [] ⟨none, some (some "2023-12-05 18:56:51Z")⟩
      (Or.inl rfl)

/-- Claim C5 (counterexample): the code matches the raw event text, not
the lower-cased text.  For the label `"Bounty started"` the lower-cased
text contains the substring `"bounty started"`, so the claim puts the
timestamp in the Started bucket, yet the code produces no event. -/
theorem C5_counterexample :
    containsSub "bounty started"
        (String.mk ("Bounty started".toList.map Char.toLower)) = true ∧
    extractBountyEvents
      [⟨some "Bounty started", some (some "2023-12-05 18:56:51Z")⟩]
      = ([], []) := by
  exact ⟨by decide, rfl⟩

/-- Claim C5 (amended): classification matches the raw, case-sensitive
event-label text: a row with both cells present appends its cleaned
timestamp to the Started bucket iff the raw text contains
`"bounty started"` and, independently, to the Ended bucket iff it
contains `"bounty ended"` (a text containing both substrings feeds both
buckets), preserving document order within each bucket; `containsSub`
is exactly substring occurrence. -/
theorem C5_classification_raw_text :
    (∀ needle hay : String, containsSub needle hay = true ↔
        ∃ l r, hay.toList = l ++ needle.toList ++ r) ∧
    (∀ (rows : List TimelineRow) (e : String) (t : Option String),
      extractBountyEvents (rows ++ [⟨some e, some t⟩]) =
        ((if containsSub "bounty started" e
            then (extractBountyEvents rows).1 ++ [cleanDate t]
            else (extractBountyEvents rows).1),
         (if containsSub "bounty ended" e
            then (extractBountyEvents rows).2 ++ [cleanDate t]
            else (extractBountyEvents rows).2))) :=
  ⟨containsSub_iff, extract_snoc⟩

theorem C5_witness :
    extractBountyEvents [⟨some "bounty started", some (some "d")⟩]
      = ([some "d"], []) := by
  have h := C5_classification_raw_text.2 [] "bounty started" (some "d")
  simp only [List.nil_append] at h
  exact h.trans (by decide)

/-- Claim C6: for every classified row — whether it lands in the
Started bucket, the Ended bucket, or both — the recorded timestamp is
the timestamp cell's `title` attribute with any leading/trailing quote
or bracket characters stripped, and a row whose `title` attribute is
absent is still recorded with a `none` timestamp rather than dropped
(scraper.py lines 187-200). -/
theorem C6_title_stripped_or_null (e s : String) (rows : List TimelineRow) :
    (∃ pre suf, (∀ c ∈ pre, c ∈ stripChars) ∧ (∀ c ∈ suf, c ∈ stripChars) ∧
        s.toList = pre ++ (pyStrip s).toList ++ suf ∧
        (∀ c, (pyStrip s).toList.head? = some c → c ∉ stripChars) ∧
        (∀ c, (pyStrip s).toList.getLast? = some c → c ∉ stripChars)) ∧
    (containsSub "bounty started" e = true → s ≠ "" →
      (extractBountyEvents (rows ++ [⟨some e, some (some s)⟩])).1
        = (extractBountyEvents rows).1 ++ [some (pyStrip s)]) ∧
    (containsSub "bounty started" e = true →
      (extractBountyEvents (rows ++ [⟨some e, some none⟩])).1
        = (extractBountyEvents rows).1 ++ [none]) ∧
    (containsSub "bounty ended" e = true → s ≠ "" →
      (extractBountyEvents (rows ++ [⟨some e, some (some s)⟩])).2
        = (extractBountyEvents rows).2 ++ [some (pyStrip s)]) ∧
    (containsSub "bounty ended" e = true →
      (extractBountyEvents (rows ++ [⟨some e, some none⟩])).2
        = (extractBountyEvents rows).2 ++ [none]) := by
  refine ⟨pyStrip_spec s, ?_, ?_, ?_, ?_⟩
  · intro hm hs
    rw [extract_snoc rows e (some s)]
    simp [hm, cleanDate, hs]
  · intro hm
    rw [extract_snoc rows e none]
    simp [hm, cleanDate]
  · intro hm hs
    rw [extract_snoc rows e (some s)]
    simp [hm, cleanDate, hs]
  · intro hm
    rw [extract_snoc rows e none]
    simp [hm, cleanDate]

theorem C6_witness :
    (extractBountyEvents
      [⟨some "bounty started", some (some "\"2023-12-05 18:56:51Z\"")⟩]).1
      = [some "2023-12-05 18:56:51Z"] ∧
    (extractBountyEvents
      [⟨some "bounty ended", some (some "\"2023-12-06 10:00:00Z\"")⟩]).2
      = [some "2023-12-06 10:00:00Z"] ∧
    (extractBountyEvents [⟨some "bounty started", some none⟩]).1 = [none] := by
  refine ⟨?_, ?_, ?_⟩
  · have h := (C6_title_stripped_or_null "bounty started"
      "\"2023-12-05 18:56:51Z\"" []).2.1 (by decide) (by decide)
    simp only [List.nil_append] at h
    exact h.trans (by decide)
  · have h := (C6_title_stripped_or_null "bounty ended"
      "\"2023-12-06 10:00:00Z\"" []).2.2.2.1 (by decide) (by decide)
    simp only [List.nil_append] at h
    exact h.trans (by decide)
  · have h := (C6_title_stripped_or_null "bounty started" "" []).2.2.1
      (by decide)
    simp only [List.nil_append] at h
    exact h.trans (by decide)

/-- Claim C1: for a readable target-ID source with column `T` and a
readable result store whose processed-ID set is `P`, the reconciler
returns exactly `T − P`: membership iff in `T` and not in `P`, no
duplicates, and the result is order-independent — permuting either
input permutes the output. -/
theorem C1_reconciler_set_difference (T : List Int) (rows : List ScrapeResult)
    (l : List Int)
    (h : _get_unprocessed_question_ids (.readable T) (some rows) true = .ok l) :
    l.Nodup ∧
    (∀ x, x ∈ l ↔ x ∈ T ∧ x ∉ rows.map ScrapeResult.question_id) ∧
    (∀ (T' : List Int) (rows' : List ScrapeResult) (l' : List Int),
      T.Perm T' →
      (rows.map ScrapeResult.question_id).Perm (rows'.map ScrapeResult.question_id) →
      _get_unprocessed_question_ids (.readable T') (some rows') true = .ok l' →
      l'.Perm l) := by
  have hl : pendingIds T (some rows) true = l := by
    simpa [_get_unprocessed_question_ids] using h
  subst hl
  refine ⟨(List.nodup_dedup T).filter _, ?_, ?_⟩
  · intro x
    simp [pendingIds, List.mem_filter, List.mem_dedup, processedIdsOf]
  · intro T' rows' l' hT hP h'
    have hl' : pendingIds T' (some rows') true = l' := by
      simpa [_get_unprocessed_question_ids] using h'
    subst hl'
    unfold pendingIds processedIdsOf
    have hpred : ∀ x ∈ T'.dedup,
        (decide (x ∉ rows'.map ScrapeResult.question_id) : Bool)
          = decide (x ∉ rows.map ScrapeResult.question_id) := by
      intro x _
      exact decide_eq_decide.mpr (not_congr hP.mem_iff).symm
    rw [List.filter_congr hpred]
    exact List.Perm.filter _ hT.dedup.symm

theorem C1_witness :
    (3 : Int) ∈ pendingIds [1, 2, 3] (some [⟨1, [], []⟩, ⟨2, [], []⟩]) true :=
  ((C1_reconciler_set_difference [1, 2, 3] [⟨1, [], []⟩, ⟨2, [], []⟩] _ rfl).2.1
    3).mpr (by decide)

/-! ### Helper lemmas about the driver -/

/-- Rows visible anywhere in the pipeline at state `s`: the store file's
rows followed by the in-memory accumulator. -/
def storeRows : Option (List ScrapeResult) → List ScrapeResult
  | none => []
  | some rows => rows

def allRows (s : RunState) : List ScrapeResult :=
  storeRows s.store ++ s.results

theorem storeRows_save (results : List ScrapeResult)
    (store : Option (List ScrapeResult)) :
    storeRows (_save_results results store) = storeRows store ++ results := by
  cases store with
  | none =>
    by_cases h : results.isEmpty
    · simp [_save_results, storeRows, h, List.isEmpty_iff.mp h]
    · simp [_save_results, storeRows, h]
  | some rows =>
    by_cases h : results.isEmpty
    · simp [_save_results, storeRows, h, List.isEmpty_iff.mp h]
    · simp [_save_results, storeRows, h]

theorem save_isSome (results : List ScrapeResult)
    (store : Option (List ScrapeResult)) (h : store.isSome = true) :
    (_save_results results store).isSome = true := by
  cases store with
  | none => simp at h
  | some rows => by_cases he : results.isEmpty <;> simp [_save_results, he]

theorem trySave_empty (so : Nat → Bool) (u : RunState) (h : u.results = []) :
    trySave so u = .ok u := by
  unfold trySave
  rw [if_pos (by simp [h])]

theorem trySave_success (so : Nat → Bool) (u : RunState)
    (h1 : u.results ≠ []) (h2 : so u.writes = true) :
    trySave so u
      = .ok ⟨[], _save_results u.results u.store, u.writes + 1, u.fetched⟩ := by
  unfold trySave
  rw [if_neg (by simpa [List.isEmpty_iff] using h1), if_pos h2]

theorem trySave_fail (so : Nat → Bool) (u : RunState)
    (h1 : u.results ≠ []) (h2 : so u.writes = false) :
    trySave so u
      = .error ⟨u.results, u.store, u.writes + 1, u.fetched⟩ := by
  unfold trySave
  rw [if_neg (by simpa [List.isEmpty_iff] using h1), if_neg (by simp [h2])]

/-- Exhaustive description of `trySave`'s three behaviours. -/
theorem trySave_cases (so : Nat → Bool) (u : RunState) :
    (u.results = [] ∧ trySave so u = .ok u) ∨
    (u.results ≠ [] ∧ so u.writes = true ∧
      trySave so u
        = .ok ⟨[], _save_results u.results u.store, u.writes + 1, u.fetched⟩) ∨
    (u.results ≠ [] ∧ so u.writes = false ∧
      trySave so u
        = .error ⟨u.results, u.store, u.writes + 1, u.fetched⟩) := by
  by_cases h0 : u.results = []
  · exact Or.inl ⟨h0, trySave_empty so u h0⟩
  · cases h1 : so u.writes
    · exact Or.inr (Or.inr ⟨h0, rfl, trySave_fail so u h0 h1⟩)
    · exact Or.inr (Or.inl ⟨h0, rfl, trySave_success so u h0 h1⟩)

theorem trySave_ok_results (so : Nat → Bool) (u t : RunState)
    (h : trySave so u = .ok t) : t.results = [] := by
  rcases trySave_cases so u with ⟨h0, he⟩ | ⟨_, _, he⟩ | ⟨_, _, he⟩ <;>
    rw [he] at h
  · simp only [Except.ok.injEq] at h
    subst h
    exact h0
  · simp only [Except.ok.injEq] at h
    subst h
    rfl
  · exact Except.noConfusion h

/-- `trySave` preserves the visible rows, their properties, and the
existence of the store file, whether it succeeds or fails. -/
theorem trySave_pres (so : Nat → Bool) (P : ScrapeResult → Prop) (u t : RunState)
    (hu : ∀ r ∈ allRows u, P r) (hsome : u.store.isSome = true)
    (h : trySave so u = .ok t ∨ trySave so u = .error t) :
    (∀ r ∈ allRows t, P r) ∧ t.store.isSome = true := by
  rcases trySave_cases so u with ⟨_, he⟩ | ⟨_, _, he⟩ | ⟨_, _, he⟩
  · rcases h with h | h
    · rw [he] at h
      simp only [Except.ok.injEq] at h
      subst h
      exact ⟨hu, hsome⟩
    · rw [he] at h
      exact Except.noConfusion h
  · rcases h with h | h
    · rw [he] at h
      simp only [Except.ok.injEq] at h
      subst h
      refine ⟨?_, save_isSome u.results u.store hsome⟩
      intro r hr
      apply hu
      simpa [allRows, storeRows_save] using hr
    · rw [he] at h
      exact Except.noConfusion h
  · rcases h with h | h
    · rw [he] at h
      exact Except.noConfusion h
    · rw [he] at h
      simp only [Except.error.injEq] at h
      subst h
      exact ⟨by simpa [allRows] using hu, hsome⟩

/-- Step equations for `runIter`, one per fetch outcome. -/
theorem runIter_unexpected (bs : Nat) (so : Nat → Bool) (u : RunState) (i : Int) :
    runIter bs so u (i, FetchOutcome.unexpected)
      = .error ⟨u.results, u.store, u.writes, u.fetched ++ [i]⟩ := rfl

theorem runIter_transient (bs : Nat) (so : Nat → Bool) (u : RunState) (i : Int) :
    runIter bs so u (i, FetchOutcome.transient)
      = (if bs ≤ u.results.length
         then trySave so ⟨u.results, u.store, u.writes, u.fetched ++ [i]⟩
         else .ok ⟨u.results, u.store, u.writes, u.fetched ++ [i]⟩) := rfl

theorem runIter_okfetch (bs : Nat) (so : Nat → Bool) (u : RunState) (i : Int)
    (rows : List TimelineRow) :
    runIter bs so u (i, FetchOutcome.ok rows)
      = (if bs ≤ (u.results
            ++ [(⟨i, (extractBountyEvents rows).1, (extractBountyEvents rows).2⟩ :
                  ScrapeResult)]).length
         then trySave so ⟨u.results
            ++ [⟨i, (extractBountyEvents rows).1, (extractBountyEvents rows).2⟩],
            u.store, u.writes, u.fetched ++ [i]⟩
         else .ok ⟨u.results
            ++ [⟨i, (extractBountyEvents rows).1, (extractBountyEvents rows).2⟩],
            u.store, u.writes, u.fetched ++ [i]⟩) := rfl

theorem runLoop_append (bs : Nat) (so : Nat → Bool)
    (l₁ l₂ : List (Int × FetchOutcome)) (s : RunState) :
    runLoop bs so (l₁ ++ l₂) s =
      match runLoop bs so l₁ s with
      | .ok s₁ => runLoop bs so l₂ s₁
      | .error s₁ => .error s₁ := by
  induction l₁ generalizing s with
  | nil => rfl
  | cons item rest ih =>
    have hstep₁ : runLoop bs so ((item :: rest) ++ l₂) s
        = match runIter bs so s item with
          | .ok s₁ => runLoop bs so (rest ++ l₂) s₁
          | .error s₁ => .error s₁ := rfl
    have hstep₂ : runLoop bs so (item :: rest) s
        = match runIter bs so s item with
          | .ok s₁ => runLoop bs so rest s₁
          | .error s₁ => .error s₁ := rfl
    rw [hstep₁, hstep₂]
    rcases hiter : runIter bs so s item with s₁ | s₁
    · rfl
    · exact ih s₁

/-- `run` on a readable target source is the reconciled body. -/
theorem run_readable (bs : Nat) (so : Nat → Bool) (T : List Int)
    (store0 : Option (List ScrapeResult)) (readOk : Bool)
    (fetch : Int → FetchOutcome) :
    run bs so (.readable T) store0 readOk fetch
      = .ok (runBody bs so (pendingIds T store0 readOk) store0 fetch) := rfl

/-- When the pending list is non-empty, the body acquires the driver and
executes the loop followed by the remainder save, releasing the driver
on every path. -/
theorem runBody_ne (bs : Nat) (so : Nat → Bool) (ids : List Int)
    (store0 : Option (List ScrapeResult)) (fetch : Int → FetchOutcome)
    (hne : ids.isEmpty = false) :
    runBody bs so ids store0 fetch =
      match runLoop bs so (ids.map fun i => (i, fetch i)) (initRunState store0) with
      | .ok s =>
          match trySave so s with
          | .ok s₁ => ⟨s₁.store, s₁.results, false, s₁.fetched, true, true⟩
          | .error s₁ => ⟨s₁.store, s₁.results, true, s₁.fetched, true, true⟩
      | .error s => ⟨s.store, s.results, true, s.fetched, true, true⟩ := by
  unfold runBody
  rw [if_neg (by simp [hne])]

/-- An exception escaping the fetch loop is caught by `run`'s broad
`except` clause: the run returns (does not crash), reports the abort,
leaves the store as it was at the abort point, keeps the unflushed
accumulator only in memory, and still releases the driver. -/
theorem run_loop_error (bs : Nat) (so : Nat → Bool) (T : List Int)
    (store0 : Option (List ScrapeResult)) (readOk : Bool)
    (fetch : Int → FetchOutcome) (s : RunState)
    (hne : (pendingIds T store0 readOk).isEmpty = false)
    (hloop : runLoop bs so ((pendingIds T store0 readOk).map fun i => (i, fetch i))
        (initRunState store0) = .error s) :
    run bs so (.readable T) store0 readOk fetch
      = .ok ⟨s.store, s.results, true, s.fetched, true, true⟩ := by
  rw [run_readable, runBody_ne bs so _ store0 fetch hne, hloop]

/-- One loop iteration preserves a property of all visible rows, as long
as the row this item could contribute satisfies it, and preserves the
existence of the store file. -/
theorem runIter_pres (bs : Nat) (so : Nat → Bool) (P : ScrapeResult → Prop)
    (item : Int × FetchOutcome) (u t : RunState)
    (hu : ∀ r ∈ allRows u, P r) (hsome : u.store.isSome = true)
    (hitem : ∀ rows, item.2 = FetchOutcome.ok rows →
      P ⟨item.1, (extractBountyEvents rows).1, (extractBountyEvents rows).2⟩)
    (h : runIter bs so u item = .ok t ∨ runIter bs so u item = .error t) :
    (∀ r ∈ allRows t, P r) ∧ t.store.isSome = true := by
  obtain ⟨i, o⟩ := item
  cases o with
  | unexpected =>
    rw [runIter_unexpected] at h
    rcases h with h | h
    · exact Except.noConfusion h
    · simp only [Except.error.injEq] at h
      subst h
      exact ⟨by simpa [allRows] using hu, hsome⟩
  | transient =>
    rw [runIter_transient] at h
    have hall : ∀ r ∈ allRows (⟨u.results, u.store, u.writes, u.fetched ++ [i]⟩ :
        RunState), P r := by simpa [allRows] using hu
    by_cases hb : bs ≤ u.results.length
    · rw [if_pos hb] at h
      exact trySave_pres so P _ t hall hsome h
    · rw [if_neg hb] at h
      rcases h with h | h
      · simp only [Except.ok.injEq] at h
        subst h
        exact ⟨hall, hsome⟩
      · exact Except.noConfusion h
  | ok rows =>
    rw [runIter_okfetch] at h
    have hP₀ : P ⟨i, (extractBountyEvents rows).1, (extractBountyEvents rows).2⟩ :=
      hitem rows rfl
    have hall : ∀ r ∈ allRows (⟨u.results
        ++ [⟨i, (extractBountyEvents rows).1, (extractBountyEvents rows).2⟩],
        u.store, u.writes, u.fetched ++ [i]⟩ : RunState), P r := by
      intro r hr
      simp only [allRows] at hr
      rcases List.mem_append.mp hr with hr | hr
      · exact hu r (List.mem_append.mpr (Or.inl hr))
      · rcases List.mem_append.mp hr with hr | hr
        · exact hu r (List.mem_append.mpr (Or.inr hr))
        · rw [List.mem_singleton.mp hr]
          exact hP₀
    by_cases hb : bs ≤ (u.results
        ++ [(⟨i, (extractBountyEvents rows).1, (extractBountyEvents rows).2⟩ :
              ScrapeResult)]).length
    · rw [if_pos hb] at h
      exact trySave_pres so P _ t hall hsome h
    · rw [if_neg hb] at h
      rcases h with h | h
      · simp only [Except.ok.injEq] at h
        subst h
        exact ⟨hall, hsome⟩
      · exact Except.noConfusion h

/-- The whole fetch loop preserves a property of all visible rows —
whether it completes or aborts — provided no successful fetch in the
item list can contribute a row violating it. -/
theorem runLoop_pres (bs : Nat) (so : Nat → Bool) (P : ScrapeResult → Prop) :
    ∀ (l : List (Int × FetchOutcome)) (s : RunState),
    (∀ r ∈ allRows s, P r) → s.store.isSome = true →
    (∀ item ∈ l, ∀ rows, item.2 = FetchOutcome.ok rows →
      P ⟨item.1, (extractBountyEvents rows).1, (extractBountyEvents rows).2⟩) →
    ∀ t, (runLoop bs so l s = .ok t ∨ runLoop bs so l s = .error t) →
    (∀ r ∈ allRows t, P r) ∧ t.store.isSome = true := by
  intro l
  induction l with
  | nil =>
    intro s hP hsome _ t ht
    rcases ht with h | h
    · have : runLoop bs so [] s = .ok s := rfl
      rw [this] at h
      simp only [Except.ok.injEq] at h
      subst h
      exact ⟨hP, hsome⟩
    · exact Except.noConfusion h
  | cons item rest ih =>
    intro s hP hsome hitems t ht
    have hstep : runLoop bs so (item :: rest) s
        = match runIter bs so s item with
          | .ok s₁ => runLoop bs so rest s₁
          | .error s₁ => .error s₁ := rfl
    rw [hstep] at ht
    rcases hiter : runIter bs so s item with s₁ | s₁ <;> rw [hiter] at ht
    · have hQ₁ := runIter_pres bs so P item s s₁ hP hsome
        (hitems item (List.mem_cons_self item rest)) (Or.inr hiter)
      rcases ht with h | h
      · exact Except.noConfusion h
      · simp only [Except.error.injEq] at h
        subst h
        exact hQ₁
    · have hQ₁ := runIter_pres bs so P item s s₁ hP hsome
        (hitems item (List.mem_cons_self item rest)) (Or.inl hiter)
      exact ih s₁ hQ₁.1 hQ₁.2
        (fun it hit => hitems it (List.mem_cons_of_mem item hit)) t ht

/-- A completing loop iteration leaves the accumulator strictly below
the batch size, or empty (it was just flushed). -/
theorem runIter_ok_batch (bs : Nat) (so : Nat → Bool) (u : RunState)
    (item : Int × FetchOutcome) (t : RunState)
    (h : runIter bs so u item = .ok t) :
    t.results.length < bs ∨ t.results = [] := by
  obtain ⟨i, o⟩ := item
  cases o with
  | unexpected =>
    rw [runIter_unexpected] at h
    exact Except.noConfusion h
  | transient =>
    rw [runIter_transient] at h
    by_cases hb : bs ≤ u.results.length
    · rw [if_pos hb] at h
      exact Or.inr (trySave_ok_results so _ t h)
    · rw [if_neg hb] at h
      simp only [Except.ok.injEq] at h
      subst h
      exact Or.inl (Nat.not_le.mp hb)
  | ok rows =>
    rw [runIter_okfetch] at h
    by_cases hb : bs ≤ (u.results
        ++ [(⟨i, (extractBountyEvents rows).1, (extractBountyEvents rows).2⟩ :
              ScrapeResult)]).length
    · rw [if_pos hb] at h
      exact Or.inr (trySave_ok_results so _ t h)
    · rw [if_neg hb] at h
      simp only [Except.ok.injEq] at h
      subst h
      exact Or.inl (Nat.not_le.mp hb)

theorem runLoop_ok_batch (bs : Nat) (so : Nat → Bool) :
    ∀ (l : List (Int × FetchOutcome)) (s t : RunState),
    (s.results.length < bs ∨ s.results = []) →
    runLoop bs so l s = .ok t →
    t.results.length < bs ∨ t.results = [] := by
  intro l
  induction l with
  | nil =>
    intro s t hs h
    have : runLoop bs so [] s = .ok s := rfl
    rw [this] at h
    simp only [Except.ok.injEq] at h
    subst h
    exact hs
  | cons item rest ih =>
    intro s t hs h
    have hstep : runLoop bs so (item :: rest) s
        = match runIter bs so s item with
          | .ok s₁ => runLoop bs so rest s₁
          | .error s₁ => .error s₁ := rfl
    rw [hstep] at h
    rcases hiter : runIter bs so s item with s₁ | s₁ <;> rw [hiter] at h
    · exact Except.noConfusion h
    · exact ih s₁ t (runIter_ok_batch bs so s item s₁ hiter) h

example : run 2 (fun _ => true) (.readable [1, 2]) none true
      (fun i => if i = 1 then .ok [] else .unexpected)
    = .ok ⟨none, [⟨1, [], []⟩], true, [1, 2], true, true⟩ := rfl

example :
    run 1 (fun n => decide (n ≠ 0)) (.readable [1, 2]) none true
      (fun _ => .ok [])
    = .ok ⟨none, [⟨1, [], []⟩], true, [1], true, true⟩ := rfl

example :
    run 1 (fun _ => true) .missing none true (fun _ => .transient)
    = .ok ⟨none, [], false, [], false, false⟩ := rfl

example :
    run 1 (fun _ => true) (.readable [1]) none true (fun _ => .ok [])
    = .ok ⟨some [⟨1, [], []⟩], [], false, [1], true, true⟩ := rfl

/-- Claim C4 (counterexample): with the target-ID source missing, the
run neither raises nor aborts — it exits cleanly with empty work, the
opposite of a fatal error escaping to the top level. -/
theorem C4_counterexample :
    run 1 (fun _ => true) IdsSource.missing none true (fun _ => .transient)
      = .ok ⟨none, [], false, [], false, false⟩ ∧
    run 1 (fun _ => true) IdsSource.missing none true (fun _ => .transient)
      ≠ .error () :=
  ⟨rfl, fun h => Except.noConfusion h⟩

/-- Claim C4 (amended): a missing target-ID source is logged and turned
into an empty work list, so the run exits cleanly before any fetch (no
driver acquired, store untouched, no error escapes); only a source file
that exists but cannot be read makes the exception escape `run`, again
before any fetch. -/
theorem C4_missing_source_clean_exit (bs : Nat) (so : Nat → Bool)
    (store0 : Option (List ScrapeResult)) (readOk : Bool)
    (fetch : Int → FetchOutcome) :
    run bs so .missing store0 readOk fetch
      = .ok ⟨store0, [], false, [], false, false⟩ ∧
    run bs so .unreadable store0 readOk fetch = .error () :=
  ⟨rfl, rfl⟩

/-- Claim C2 (counterexample): an unexpected error in the second loop
iteration aborts the run while the result for ID 1 is still in the
in-memory accumulator; the claimed best-effort flush never happens — the
store remains nonexistent and the accumulated result is lost. -/
theorem C2_counterexample :
    ∃ out : RunOutcome,
      run 2 (fun _ => true) (.readable [1, 2]) none true
        (fun i => if i = 1 then FetchOutcome.ok [] else .unexpected)
        = .ok out ∧
      out.aborted = true ∧
      (⟨1, [], []⟩ : ScrapeResult) ∈ out.leftover ∧
      ¬ ∃ rows, out.store = some rows ∧ (⟨1, [], []⟩ : ScrapeResult) ∈ rows := by
  refine ⟨⟨none, [⟨1, [], []⟩], true, [1, 2], true, true⟩, rfl, rfl, ?_, ?_⟩
  · exact List.mem_singleton.mpr rfl
  · rintro ⟨rows, h, _⟩
    exact Option.noConfusion h

/-- Claim C2 (amended): an unexpected (non-per-item) error inside the
fetch loop aborts the loop at that item — no later item is processed and
the results accumulated in memory are NOT flushed (the store stays as it
was at the abort point and the accumulator survives only as the lost
`leftover`) — while the broad `except` clause swallows the error and the
`finally` clause still releases the fetcher resource before the run
ends. -/
theorem C2_unexpected_abort_no_flush :
    (∀ (bs : Nat) (so : Nat → Bool) (l₁ l₂ : List (Int × FetchOutcome))
      (q : Int) (s s₁ : RunState),
      runLoop bs so l₁ s = .ok s₁ →
      runLoop bs so (l₁ ++ (q, FetchOutcome.unexpected) :: l₂) s
        = .error ⟨s₁.results, s₁.store, s₁.writes, s₁.fetched ++ [q]⟩) ∧
    (∀ (bs : Nat) (so : Nat → Bool) (T : List Int)
      (store0 : Option (List ScrapeResult)) (readOk : Bool)
      (fetch : Int → FetchOutcome) (s : RunState),
      (pendingIds T store0 readOk).isEmpty = false →
      runLoop bs so ((pendingIds T store0 readOk).map fun i => (i, fetch i))
          (initRunState store0) = .error s →
      run bs so (.readable T) store0 readOk fetch
        = .ok ⟨s.store, s.results, true, s.fetched, true, true⟩) := by
  constructor
  · intro bs so l₁ l₂ q s s₁ h
    rw [runLoop_append, h]
    rfl
  · intro bs so T store0 readOk fetch s hne hloop
    exact run_loop_error bs so T store0 readOk fetch s hne hloop

theorem C2_witness :
    run 2 (fun _ => true) (.readable [1, 2]) none true
        (fun i => if i = 1 then FetchOutcome.ok [] else .unexpected)
      = .ok ⟨none, [⟨1, [], []⟩], true, [1, 2], true, true⟩ :=
  C2_unexpected_abort_no_flush.2 2 (fun _ => true) [1, 2] none true
    (fun i => if i = 1 then FetchOutcome.ok [] else .unexpected)
    ⟨[⟨1, [], []⟩], none, 0, [1, 2]⟩ rfl rfl

/-- Claim C3 (counterexample): with batch size 1 and the first store
write failing, the write exception aborts the whole run: ID 2 is never
fetched (the driver does not proceed to the remaining pending IDs) and
the store is never created, contradicting the claim that the driver
continues with subsequent batches. -/
theorem C3_counterexample :
    ∃ out : RunOutcome,
      run 1 (fun n => decide (n ≠ 0)) (.readable [1, 2]) none true
        (fun _ => FetchOutcome.ok []) = .ok out ∧
      out.aborted = true ∧ out.store = none ∧ (2 : Int) ∉ out.fetched := by
  refine ⟨⟨none, [⟨1, [], []⟩], true, [1], true, true⟩, rfl, rfl, rfl, ?_⟩
  decide

/-- Claim C3 (amended): a failing store append leaves the store
unchanged and the batch in memory, and — because `_save_results` has no
handler — the exception aborts the fetch loop at that point: no further
pending ID is processed this run.  The pipeline-level `except` clause
then catches it (the process does not crash) and the driver is
released; the lost work is recoverable by a future rerun. -/
theorem C3_store_write_failure_aborts :
    (∀ (so : Nat → Bool) (s : RunState), s.results ≠ [] → so s.writes = false →
      trySave so s = .error ⟨s.results, s.store, s.writes + 1, s.fetched⟩) ∧
    (∀ (bs : Nat) (so : Nat → Bool) (l₁ l₂ : List (Int × FetchOutcome))
      (q : Int) (rows : List TimelineRow) (s s₁ : RunState),
      runLoop bs so l₁ s = .ok s₁ →
      bs ≤ s₁.results.length + 1 →
      so s₁.writes = false →
      runLoop bs so (l₁ ++ (q, FetchOutcome.ok rows) :: l₂) s
        = .error ⟨s₁.results
            ++ [⟨q, (extractBountyEvents rows).1, (extractBountyEvents rows).2⟩],
            s₁.store, s₁.writes + 1, s₁.fetched ++ [q]⟩) ∧
    (∀ (bs : Nat) (so : Nat → Bool) (T : List Int)
      (store0 : Option (List ScrapeResult)) (readOk : Bool)
      (fetch : Int → FetchOutcome) (s : RunState),
      (pendingIds T store0 readOk).isEmpty = false →
      runLoop bs so ((pendingIds T store0 readOk).map fun i => (i, fetch i))
          (initRunState store0) = .error s →
      run bs so (.readable T) store0 readOk fetch
        = .ok ⟨s.store, s.results, true, s.fetched, true, true⟩) := by
  refine ⟨trySave_fail, ?_, ?_⟩
  · intro bs so l₁ l₂ q rows s s₁ h hthr hfail
    rw [runLoop_append, h]
    show runLoop bs so ((q, FetchOutcome.ok rows) :: l₂) s₁ = _
    have hiter : runIter bs so s₁ (q, FetchOutcome.ok rows)
        = .error ⟨s₁.results
            ++ [⟨q, (extractBountyEvents rows).1, (extractBountyEvents rows).2⟩],
            s₁.store, s₁.writes + 1, s₁.fetched ++ [q]⟩ := by
      rw [runIter_okfetch]
      rw [if_pos (by simpa using hthr)]
      exact trySave_fail so _ (by simp) hfail
    have hstep : runLoop bs so ((q, FetchOutcome.ok rows) :: l₂) s₁
        = match runIter bs so s₁ (q, FetchOutcome.ok rows) with
          | .ok u => runLoop bs so l₂ u
          | .error u => .error u := rfl
    rw [hstep, hiter]
  · intro bs so T store0 readOk fetch s hne hloop
    exact run_loop_error bs so T store0 readOk fetch s hne hloop

theorem C3_witness :
    run 1 (fun n => decide (n ≠ 0)) (.readable [1, 2]) none true
        (fun _ => FetchOutcome.ok [])
      = .ok ⟨none, [⟨1, [], []⟩], true, [1], true, true⟩ :=
  C3_store_write_failure_aborts.2.2 1 (fun n => decide (n ≠ 0)) [1, 2] none true
    (fun _ => FetchOutcome.ok []) ⟨[⟨1, [], []⟩], none, 1, [1]⟩ rfl rfl

/-- Claim C8: the in-memory batch never exceeds the configured batch
size — after every completed loop prefix the accumulator is strictly
below the batch size or just-flushed empty; an iteration whose appended
result reaches the threshold flushes (saves and clears) immediately;
and at normal (non-aborted) completion no accumulated result is left
unflushed. -/
theorem C8_batch_bound (bs : Nat) (so : Nat → Bool) :
    (∀ (l : List (Int × FetchOutcome)) (store0 : Option (List ScrapeResult))
      (t : RunState),
      runLoop bs so l (initRunState store0) = .ok t →
      t.results.length < bs ∨ t.results = []) ∧
    (∀ (u : RunState) (i : Int) (rows : List TimelineRow) (t : RunState),
      runIter bs so u (i, FetchOutcome.ok rows) = .ok t →
      bs ≤ u.results.length + 1 → t.results = []) ∧
    (∀ (src : IdsSource) (store0 : Option (List ScrapeResult)) (readOk : Bool)
      (fetch : Int → FetchOutcome) (out : RunOutcome),
      run bs so src store0 readOk fetch = .ok out →
      out.aborted = false → out.leftover = []) := by
  refine ⟨?_, ?_, ?_⟩
  · intro l store0 t h
    exact runLoop_ok_batch bs so l (initRunState store0) t (Or.inr rfl) h
  · intro u i rows t h hthr
    rw [runIter_okfetch] at h
    rw [if_pos (by simpa using hthr)] at h
    exact trySave_ok_results so _ t h
  · intro src store0 readOk fetch out h habort
    cases src with
    | missing =>
      have heq : run bs so .missing store0 readOk fetch
          = .ok ⟨store0, [], false, [], false, false⟩ := rfl
      rw [heq] at h
      simp only [Except.ok.injEq] at h
      subst h
      rfl
    | unreadable => exact Except.noConfusion h
    | readable T =>
      rw [run_readable] at h
      simp only [Except.ok.injEq] at h
      subst h
      unfold runBody at habort ⊢
      by_cases hne : (pendingIds T store0 readOk).isEmpty
      · rw [if_pos hne] at habort ⊢
      · rw [if_neg hne] at habort ⊢
        rcases hloop : runLoop bs so
            ((pendingIds T store0 readOk).map fun i => (i, fetch i))
            (initRunState store0) with s | s
        · rw [hloop] at habort
          exact Bool.noConfusion habort
        · rw [hloop] at habort
          have habort₁ : (match trySave so s with
              | Except.ok s₁ =>
                  (⟨s₁.store, s₁.results, false, s₁.fetched, true, true⟩ : RunOutcome)
              | Except.error s₁ =>
                  ⟨s₁.store, s₁.results, true, s₁.fetched, true, true⟩).aborted
              = false := habort
          show (match trySave so s with
              | Except.ok s₁ =>
                  (⟨s₁.store, s₁.results, false, s₁.fetched, true, true⟩ : RunOutcome)
              | Except.error s₁ =>
                  ⟨s₁.store, s₁.results, true, s₁.fetched, true, true⟩).leftover = []
          rcases trySave_cases so s with ⟨h0, he⟩ | ⟨_, _, he⟩ | ⟨_, _, he⟩ <;>
            rw [he] at habort₁ ⊢
          · exact h0
          · exact Bool.noConfusion habort₁

theorem C8_witness :
    RunOutcome.leftover ⟨some [⟨1, [], []⟩], [], false, [1], true, true⟩ = [] :=
  (C8_batch_bound 1 (fun _ => true)).2.2 (.readable [1]) none true
    (fun _ => FetchOutcome.ok [])
    ⟨some [⟨1, [], []⟩], [], false, [1], true, true⟩ rfl rfl

/-- From a loop-exit state all of whose visible rows avoid id `q` and
whose store file exists, the run outcome built on it keeps `q` out of
the leftover, out of the store, and in the next run's pending list. -/
theorem state_keeps_pending (q : Int) (T : List Int) (u : RunState)
    (hrows : ∀ r ∈ allRows u, r.question_id ≠ q)
    (hsome : u.store.isSome = true) (hqT : q ∈ T) :
    (∀ r ∈ u.results, r.question_id ≠ q) ∧
    (∃ rows, u.store = some rows ∧ ∀ r ∈ rows, r.question_id ≠ q) ∧
    (∃ l, _get_unprocessed_question_ids (.readable T) u.store true = .ok l ∧
      q ∈ l) := by
  obtain ⟨rows, hrw⟩ := Option.isSome_iff_exists.mp hsome
  have hrowsP : ∀ r ∈ rows, r.question_id ≠ q := by
    intro r hr
    apply hrows
    simp only [allRows, hrw, storeRows, List.mem_append]
    exact Or.inl hr
  refine ⟨?_, ⟨rows, hrw, hrowsP⟩, ?_⟩
  · intro r hr
    exact hrows r (List.mem_append.mpr (Or.inr hr))
  · refine ⟨pendingIds T (some rows) true, by rw [hrw]; rfl, ?_⟩
    simp only [pendingIds, List.mem_filter, List.mem_dedup, decide_eq_true_eq]
    refine ⟨hqT, ?_⟩
    simp only [processedIdsOf]
    intro hmem
    obtain ⟨r, hr, hrq⟩ := List.mem_map.mp hmem
    exact hrowsP r hr hrq

/-- The observable store and leftover of a non-empty-work `runBody` come
from a state reached by the loop, possibly followed by the final
remainder save. -/
theorem runBody_state (bs : Nat) (so : Nat → Bool) (ids : List Int)
    (store0 : Option (List ScrapeResult)) (fetch : Int → FetchOutcome)
    (hne : ids.isEmpty = false) :
    ∃ u : RunState,
      (runBody bs so ids store0 fetch).store = u.store ∧
      (runBody bs so ids store0 fetch).leftover = u.results ∧
      ((∃ v, runLoop bs so (ids.map fun i => (i, fetch i)) (initRunState store0)
          = .ok v ∧ (trySave so v = .ok u ∨ trySave so v = .error u)) ∨
       runLoop bs so (ids.map fun i => (i, fetch i)) (initRunState store0)
          = .error u) := by
  rw [runBody_ne bs so ids store0 fetch hne]
  rcases hloop : runLoop bs so (ids.map fun i => (i, fetch i))
      (initRunState store0) with s | s
  · exact ⟨s, rfl, rfl, Or.inr rfl⟩
  · dsimp only
    rcases hts : trySave so s with s₁ | s₁
    · exact ⟨s₁, rfl, rfl, Or.inl ⟨s, rfl, Or.inr hts⟩⟩
    · exact ⟨s₁, rfl, rfl, Or.inl ⟨s, rfl, Or.inl hts⟩⟩

/-- Claim C9: a pending ID `q` whose fetch raises a transient error
produces no ScrapeResult, lets no exception escape the loop (its
iteration completes normally, only marking `q` fetched), never enters
the result store, and is pending again for the next run. -/
theorem C9_transient_fetch_skip (bs : Nat) (so : Nat → Bool) (T : List Int)
    (rows0 : List ScrapeResult) (fetch : Int → FetchOutcome) (q : Int)
    (hqT : q ∈ T) (hP : ∀ r ∈ rows0, r.question_id ≠ q)
    (hf : fetch q = .transient) :
    (∀ s : RunState, s.results.length < bs ∨ s.results = [] →
      runIter bs so s (q, FetchOutcome.transient)
        = .ok ⟨s.results, s.store, s.writes, s.fetched ++ [q]⟩) ∧
    (∀ out : RunOutcome,
      run bs so (.readable T) (some rows0) true fetch = .ok out →
      (∀ r ∈ out.leftover, r.question_id ≠ q) ∧
      (∃ rows, out.store = some rows ∧ ∀ r ∈ rows, r.question_id ≠ q) ∧
      (∃ l, _get_unprocessed_question_ids (.readable T) out.store true = .ok l ∧
        q ∈ l)) := by
  constructor
  · intro s hs
    rw [runIter_transient]
    rcases hs with hlt | hnil
    · rw [if_neg (Nat.not_le.mpr hlt)]
    · rw [hnil]
      by_cases hb : bs ≤ (List.length ([] : List ScrapeResult))
      · rw [if_pos hb]
        rfl
      · rw [if_neg hb]
  · intro out hout
    have hqpend : q ∈ pendingIds T (some rows0) true := by
      simp only [pendingIds, List.mem_filter, List.mem_dedup, decide_eq_true_eq]
      refine ⟨hqT, ?_⟩
      simp only [processedIdsOf]
      intro hmem
      obtain ⟨r, hr, hrq⟩ := List.mem_map.mp hmem
      exact hP r hr hrq
    have hne : (pendingIds T (some rows0) true).isEmpty = false := by
      cases hpe : (pendingIds T (some rows0) true).isEmpty
      · rfl
      · rw [List.isEmpty_iff.mp hpe] at hqpend
        exact absurd hqpend (List.not_mem_nil q)
    rw [run_readable] at hout
    simp only [Except.ok.injEq] at hout
    subst hout
    have hinit : ∀ r ∈ allRows (initRunState (some rows0)),
        r.question_id ≠ q := by
      intro r hr
      simp only [allRows, initRunState, storeRows, List.append_nil] at hr
      exact hP r hr
    have hitems : ∀ item ∈ (pendingIds T (some rows0) true).map
        (fun i => (i, fetch i)), ∀ rows, item.2 = FetchOutcome.ok rows →
        (⟨item.1, (extractBountyEvents rows).1,
          (extractBountyEvents rows).2⟩ : ScrapeResult).question_id ≠ q := by
      intro item hitem rows hrows
      obtain ⟨i, _, rfl⟩ := List.mem_map.mp hitem
      by_cases hiq : i = q
      · subst hiq
        rw [hf] at hrows
        exact FetchOutcome.noConfusion hrows
      · exact hiq
    obtain ⟨u, hstore, hleft, hcase⟩ := runBody_state bs so
      (pendingIds T (some rows0) true) (some rows0) fetch hne
    rw [hstore, hleft]
    have hQu : (∀ r ∈ allRows u, r.question_id ≠ q) ∧ u.store.isSome = true := by
      rcases hcase with ⟨v, hloop, hts⟩ | hloop
      · have hQv := runLoop_pres bs so (fun r => r.question_id ≠ q) _
          (initRunState (some rows0)) hinit rfl hitems v (Or.inl hloop)
        exact trySave_pres so (fun r => r.question_id ≠ q) v u hQv.1 hQv.2 hts
      · exact runLoop_pres bs so (fun r => r.question_id ≠ q) _
          (initRunState (some rows0)) hinit rfl hitems u (Or.inr hloop)
    exact state_keeps_pending q T u hQu.1 hQu.2 hqT

theorem C9_witness :
    (42 : Int) ∈ pendingIds [42, 1] (some [⟨7, [], []⟩, ⟨1, [], []⟩]) true := by
  have h := (C9_transient_fetch_skip 2 (fun _ => true) [42, 1] [⟨7, [], []⟩]
      (fun i => if i = 42 then FetchOutcome.transient else .ok []) 42
      (by decide) (by decide) rfl).2
      ⟨some [⟨7, [], []⟩, ⟨1, [], []⟩], [], false, [42, 1], true, true⟩ rfl
  obtain ⟨l, hl, hq⟩ := h.2.2
  have hpe : pendingIds [42, 1] (some [⟨7, [], []⟩, ⟨1, [], []⟩]) true = l := by
    simpa [_get_unprocessed_question_ids] using hl
  rw [hpe]
  exact hq

end BountyScraper
